import Mathlib

/-!
Shallow embedding of the `postgres` migration driver (`src/postgres.go`).

The driver talks to a real database through `database/sql`; here every
database interaction is resolved by an explicit oracle recording the outcome
each call would produce (success or the Go error value returned).  `Migrate`
becomes a pure function from the migration file, the oracle and the current
rows of the version table to: the list of values sent on the result channel
(`pipe`), the trace of database actions issued, the rows of the version table
visible after the call, whether the call panicked, and whether the channel
was closed (the `defer close(pipe)` always runs, also while panicking).

Pure helpers (`fileOptions`, `txDisabled`) are embedded directly over
`List Char`, together with models of the Go standard-library string
functions they call.
-/

namespace PostgresDriver

/-- Modelled from the spec: the external `direction` package (not under
`src/`) supplies the direction of a migration file; the spec's data model
gives it exactly the two values Up and Down. -/
inductive Direction where
  | up
  | down
deriving DecidableEq, Repr

/-- The backend-native error (`pq.Error`): severity, code, message and the
textual position hint consumed by `Migrate`'s failure branch. -/
structure PqError where
  severity : String
  code : String
  message : String
  position : String
deriving DecidableEq, Repr

/-- A Go `error` value as seen by the driver: either a backend-native
`*pq.Error` or any other error (driver-level, closed connection, ...). -/
inductive GoError where
  | pq (e : PqError)
  | other (msg : String)
deriving DecidableEq, Repr

/-- Modelled from the spec: the external `file` package's `File` (not under
`src/`): a version, a direction and lazily-loadable raw content.  `content`
holds the bytes `ReadContent` would load; whether that load succeeds is
decided by the oracle. -/
structure File where
  version : Int
  direction : Direction
  content : List Char
deriving DecidableEq, Repr

/- ### Go standard-library string functions used by `fileOptions` -/

/-- Go `strings.SplitN(s, sep, 2)` for a one-character separator: the part
before the first separator, and the remainder when a separator occurs. -/
def goSplitN2 (sep : Char) : List Char → List (List Char)
  | [] => [[]]
  | c :: cs =>
    if c = sep then [[], cs]
    else
      match goSplitN2 sep cs with
      | [] => [[c]]
      | g :: gs => (c :: g) :: gs

/-- Go `strings.Split(s, sep)` for a one-character separator. -/
def goSplit (sep : Char) : List Char → List (List Char)
  | [] => [[]]
  | c :: cs =>
    if c = sep then [] :: goSplit sep cs
    else
      match goSplit sep cs with
      | [] => [[c]]
      | g :: gs => (c :: g) :: gs

/-- Go `strings.HasPrefix(s, pfx)`. -/
def goHasPfx (s pfx : List Char) : Bool :=
  match pfx, s with
  | [], _ => true
  | _ :: _, [] => false
  | p :: ps, c :: cs => c = p && goHasPfx cs ps

/-- Go `strings.TrimPrefix(s, pfx)`. -/
def goTrimPfx (s pfx : List Char) : List Char :=
  if goHasPfx s pfx then s.drop pfx.length else s

/- ### `fileOptions` and `txDisabled` (src/postgres.go lines 191-207) -/

/-- `const txDisabledOption = "disable_ddl_transaction"` (line 24). -/
def txDisabledOption : List Char := "disable_ddl_transaction".toList

/-- The `"-- "` comment marker tested by `fileOptions`. -/
def optionMarker : List Char := "-- ".toList

/-- `fileOptions` (lines 191-198): the options extracted from the first line
of the file content, format `-- <option1> <option2> <...>`. -/
def fileOptions (content : List Char) : List (List Char) :=
  let firstLine := (goSplitN2 '\n' content).headD []
  if goHasPfx firstLine optionMarker then
    goSplit ' ' (goTrimPfx firstLine optionMarker)
  else
    []

/-- `txDisabled` (lines 200-207): membership test for the disable-transaction
token. -/
def txDisabled (opts : List (List Char)) : Bool :=
  opts.any (fun v => v == txDisabledOption)

/-- The claim's independent description of the option parser: take the first
line (characters up to, not including, the first newline); if it starts with
the three characters `-- `, split the remainder on single spaces; otherwise
no options. -/
def fileOptionsSpec (content : List Char) : List (List Char) :=
  let firstLine := content.takeWhile (fun c => c != '\n')
  if firstLine.take 3 = ['-', '-', ' '] then goSplit ' ' (firstLine.drop 3)
  else []

/- ### Go `strconv.Atoi` -/

/-- Value of a list of decimal digits. -/
def digitsVal (ds : List Char) : Nat :=
  ds.foldl (fun acc c => acc * 10 + (c.toNat - '0'.toNat)) 0

/-- Go `strconv.Atoi`: optional sign, then one or more decimal digits, and
the value must fit a 64-bit `int`; anything else returns an error (`none`). -/
def goAtoi (s : String) : Option Int :=
  match s.toList with
  | [] => none
  | c :: rest =>
    let (neg, ds) :=
      if c = '-' then (true, rest)
      else if c = '+' then (false, rest)
      else (false, c :: rest)
    if ds = [] then none
    else if ds.all Char.isDigit then
      let v : Nat := digitsVal ds
      if neg then
        if v ≤ 2 ^ 63 then some (-(v : Int)) else none
      else
        if v ≤ 2 ^ 63 - 1 then some (v : Int) else none
    else none

/- ### Error Locator (external `file` package, modelled from the spec) -/

/-- Index of the last newline among `cs`, counting from `start`. -/
def lastNewlineFrom (start : Nat) : List Char → Option Nat
  | [] => none
  | c :: cs =>
    match lastNewlineFrom (start + 1) cs with
    | some j => some j
    | none => if c = '\n' then some start else none

/-- Modelled from the spec: `file.LineColumnFromOffset` of the external
`file` package (not under `src/`).  Walks `content` counting newline
characters up to the offset to determine the 1-based line number, and
computes the column as the offset minus the position of the preceding
newline (1-based column when no newline precedes). -/
def lineColumnFromOffset (content : List Char) (offset : Int) : Nat × Nat :=
  let off := offset.toNat
  let pre := content.take off
  let line := pre.count '\n' + 1
  let column :=
    match lastNewlineFrom 0 pre with
    | some p => off - p
    | none => off + 1
  (line, column)

/-- Modelled from the spec: `file.LinesBeforeAndAfter` of the external `file`
package (not under `src/`).  Extracts up to `before` lines preceding and
`after` lines following the 1-based `line` (clamped to the content bounds),
keeps the original line breaks, and marks the target line distinctly. -/
def linesBeforeAndAfter (content : List Char) (line before after : Nat)
    (markCurrent : Bool) : List Char :=
  let ls := goSplit '\n' content
  let lo := max 1 (line - before)
  let hi := min (line + after) ls.length
  let window := (List.range (hi + 1 - lo)).map (fun i =>
    let n := lo + i
    let text := ls.getD (n - 1) []
    if markCurrent && n = line then '>' :: ' ' :: text else text)
  (window.intersperse ['\n']).flatten

/- ### The formatted error strings of Migrate's failure branch -/

/-- `fmt.Errorf("%s %v: %s in line %v, column %v:\n\n%s", ...)`
(line 131). -/
def longFormat (pe : PqError) (lineNo columnNo : Nat) (part : List Char) :
    String :=
  pe.severity ++ " " ++ pe.code ++ ": " ++ pe.message ++ " in line " ++
    toString lineNo ++ ", column " ++ toString columnNo ++ ":\n\n" ++
    String.mk part

/-- `fmt.Errorf("%s %v: %s", ...)` (line 133). -/
def shortFormat (pe : PqError) : String :=
  pe.severity ++ " " ++ pe.code ++ ": " ++ pe.message

/-- The located long error format of lines 129-131: the offset is decreased
by one before the line/column lookup, and the context window is ±5 lines
around the computed line. -/
def locatedFmt (content : List Char) (pe : PqError) (off : Int) : String :=
  let lc := lineColumnFromOffset content (off - 1)
  longFormat pe lc.1 lc.2 (linesBeforeAndAfter content lc.1 5 5 true)

/- ### The Migrate protocol -/

/-- A value sent on the result channel: the file itself, a forwarded Go
error, or a formatted error string produced by `fmt.Errorf`. -/
inductive PipeValue where
  | file (f : File)
  | rawErr (e : GoError)
  | fmtErr (s : String)
deriving DecidableEq, Repr

/-- A database action issued during one `Migrate` call. -/
inductive Action where
  | beginTx
  | execInsert (version : Int)
  | execDelete (version : Int)
  | readContent
  | execContentInTx
  | execContentOnDb
  | rollback
  | commit
deriving DecidableEq, Repr

/-- Outcome oracle for one `Migrate` call: the Go error (if any) each
database interaction would return, and the effect the file's own statements
would have on the rows of the version table. -/
structure MigrateOracle where
  beginErr : Option GoError
  insertErr : Option GoError
  deleteErr : Option GoError
  readErr : Option GoError
  execTxErr : Option GoError
  execDbErr : Option GoError
  rollbackErr : Option GoError
  commitErr : Option GoError
  contentEffect : List Int → List Int

/-- Result of one `Migrate` call: values sent on the channel in order, the
trace of database actions, the version-table rows visible after the call,
whether the call panicked, and whether the channel was closed. -/
structure MigrateResult where
  pipe : List PipeValue
  trace : List Action
  finalVersions : List Int
  panicked : Bool
  closed : Bool
deriving Repr

/-- The version-marker mutation (lines 96-112) as an operation on the rows
of the version table: insert for Up, delete for Down. -/
def markerOp (f : File) (rows : List Int) : List Int :=
  match f.direction with
  | .up => f.version :: rows
  | .down => rows.filter (fun v => v != f.version)

/-- The error of the marker mutation's `tx.Exec`, as the oracle decides it
for the query actually issued (INSERT for Up, DELETE for Down). -/
def markerErrOf (f : File) (o : MigrateOracle) : Option GoError :=
  match f.direction with
  | .up => o.insertErr
  | .down => o.deleteErr

/-- The trace entry of the marker mutation. -/
def markerAct (f : File) : Action :=
  match f.direction with
  | .up => .execInsert f.version
  | .down => .execDelete f.version

/-- The statement-execution failure branch (lines 125-139).  The Go code
casts the error to `*pq.Error` unconditionally: a non-`pq` error panics at
the cast (the deferred `close(pipe)` still runs).  For a `pq` error, a
parsable non-negative position hint selects the long located format, with
the offset decreased by one before the lookup; otherwise the short format.
Then rollback, forwarding a rollback error as a second value.  `committed`
is the version-table state visible after the transaction is rolled back. -/
def stmtFail (f : File) (o : MigrateOracle) (e : GoError)
    (committed : List Int) (trace : List Action) : MigrateResult :=
  match e with
  | .other _ => ⟨[.file f], trace, committed, true, true⟩
  | .pq pe =>
    let emitted :=
      match goAtoi pe.position with
      | some off =>
        if 0 ≤ off then PipeValue.fmtErr (locatedFmt f.content pe off)
        else PipeValue.fmtErr (shortFormat pe)
      | none => PipeValue.fmtErr (shortFormat pe)
    match o.rollbackErr with
    | some re =>
      ⟨[.file f, emitted, .rawErr re], trace ++ [.rollback], committed,
        false, true⟩
    | none =>
      ⟨[.file f, emitted], trace ++ [.rollback], committed, false, true⟩

/-- `Migrate` (lines 86-146), as a pure function of the file, the outcome
oracle and the version-table rows at entry.  Transactional changes become
visible only at a successful commit; a file whose options disable the
transaction has its content executed directly on the database handle, so its
content effect is durable immediately, while the marker mutation stays in
the transaction. -/
def Migrate (f : File) (o : MigrateOracle) (db : List Int) : MigrateResult :=
  match o.beginErr with
  | some e => ⟨[.file f, .rawErr e], [.beginTx], db, false, true⟩
  | none =>
    match markerErrOf f o with
    | some e =>
      match o.rollbackErr with
      | some re =>
        ⟨[.file f, .rawErr e, .rawErr re], [.beginTx, markerAct f, .rollback],
          db, false, true⟩
      | none =>
        ⟨[.file f, .rawErr e], [.beginTx, markerAct f, .rollback], db,
          false, true⟩
    | none =>
      match o.readErr with
      | some e =>
        ⟨[.file f, .rawErr e], [.beginTx, markerAct f, .readContent], db,
          false, true⟩
      | none =>
        if txDisabled (fileOptions f.content) then
          -- content executed directly on the db handle, outside the tx
          let committed := o.contentEffect db
          let trace := [Action.beginTx, markerAct f, .readContent,
            .execContentOnDb]
          match o.execDbErr with
          | some e => stmtFail f o e committed trace
          | none =>
            match o.commitErr with
            | some e =>
              ⟨[.file f, .rawErr e], trace ++ [.commit], committed, false,
                true⟩
            | none =>
              ⟨[.file f], trace ++ [.commit], markerOp f committed, false,
                true⟩
        else
          -- content executed inside the transaction, after the marker
          let trace := [Action.beginTx, markerAct f, .readContent,
            .execContentInTx]
          match o.execTxErr with
          | some e => stmtFail f o e db trace
          | none =>
            match o.commitErr with
            | some e =>
              ⟨[.file f, .rawErr e], trace ++ [.commit], db, false, true⟩
            | none =>
              ⟨[.file f], trace ++ [.commit],
                o.contentEffect (markerOp f db), false, true⟩

/- ### ensureVersionTableExists (lines 53-78) -/

/-- A DDL statement `ensureVersionTableExists` may issue. -/
inductive Ddl where
  | createTable
  | alterColumn
deriving DecidableEq, Repr

/-- Outcome oracle for `ensureVersionTableExists`: result of the
`count(*)` existence query, result of the `data_type` query, and the error
(if any) of each DDL statement. -/
structure SchemaOracle where
  countResult : Except GoError Int
  dataTypeResult : Except GoError String
  createErr : Option GoError
  alterErr : Option GoError

/-- `ensureVersionTableExists` (lines 53-78): returns the Go error result
and the list of DDL statements issued. -/
def ensureVersionTableExists (o : SchemaOracle) : Option GoError × List Ddl :=
  match o.countResult with
  | .error e => (some e, [])
  | .ok c =>
    if c ≤ 0 then (o.createErr, [.createTable])
    else
      match o.dataTypeResult with
      | .error e => (some e, [])
      | .ok dataType =>
        if dataType = "bigint" then (none, [])
        else (o.alterErr, [.alterColumn])

/-- `Versions` (lines 160-181): `SELECT version FROM ... ORDER BY version
DESC` over the rows of the version table. -/
def VersionsOf (rows : List Int) : List Int :=
  rows.mergeSort (fun a b => b ≤ a)

/-- A pipe value that is an error value (anything but the file itself). -/
def isErrValue : PipeValue → Bool
  | .file _ => false
  | .rawErr _ => true
  | .fmtErr _ => true

/-- An action that is a version-marker mutation. -/
def isMarkerAct : Action → Bool
  | .execInsert _ => true
  | .execDelete _ => true
  | _ => false

/-- Number of version-marker mutations in a trace. -/
def countMarker (t : List Action) : Nat :=
  (t.filter isMarkerAct).length

/- ### Concrete inputs used by the witnesses -/

/-- All steps of one `Migrate` call succeed: begin, the marker mutation, the
content load, the statement execution (on whichever handle the options
select) and the commit. -/
def allStepsSucceed (f : File) (o : MigrateOracle) : Prop :=
  o.beginErr = none ∧ markerErrOf f o = none ∧ o.readErr = none ∧
  (if txDisabled (fileOptions f.content) then o.execDbErr
   else o.execTxErr) = none ∧
  o.commitErr = none

def sampleContent : List Char := "CREATE TABLE t (a int);".toList

def sampleFileUp : File := ⟨3, .up, sampleContent⟩

def oracleAllOk : MigrateOracle :=
  ⟨none, none, none, none, none, none, none, none, fun rows => rows⟩

def oracleMarkerRbFail : MigrateOracle :=
  ⟨none, some (.other "duplicate key"), none, none, none, none,
    some (.other "rollback failed"), none, fun rows => rows⟩

def oracleStmtFailTx : MigrateOracle :=
  ⟨none, none, none, none, some (.pq ⟨"ERROR", "42601", "syntax error", "7"⟩),
    none, none, none, fun rows => rows⟩

def disabledContent : List Char :=
  "-- disable_ddl_transaction\nALTER TABLE t ADD COLUMN b int;".toList

def disabledFileUp : File := ⟨5, .up, disabledContent⟩

def oracleReadFail : MigrateOracle :=
  ⟨none, none, none, some (.other "read failed"), none, none, none, none,
    fun rows => rows⟩

def pqErr14 : PqError := ⟨"ERROR", "42601", "syntax error", "14"⟩

def badSqlContent : List Char := "line1\nline2\nBAD SQL\nline4\n".toList

def badSqlFile : File := ⟨6, .up, badSqlContent⟩

def oracleStmtFailTx14 : MigrateOracle :=
  ⟨none, none, none, none, some (.pq pqErr14), none, none, none,
    fun rows => rows⟩

def oracleStmtFailOther : MigrateOracle :=
  ⟨none, none, none, none, some (.other "driver: bad connection"), none,
    none, none, fun rows => rows⟩


/- ### Helper lemmas -/

theorem goSplitN2_ne_nil (sep : Char) (s : List Char) :
    goSplitN2 sep s ≠ [] := by
  cases s with
  | nil => simp [goSplitN2]
  | cons c cs =>
    simp only [goSplitN2]
    split
    · simp
    · split <;> simp

theorem goSplitN2_headD (sep : Char) (s : List Char) :
    (goSplitN2 sep s).headD [] = s.takeWhile (fun c => c != sep) := by
  induction s with
  | nil => rfl
  | cons c cs ih =>
    by_cases h : c = sep
    · simp [goSplitN2, h, List.takeWhile_cons]
    · rcases hq : goSplitN2 sep cs with _ | ⟨g, gs⟩
      · exact absurd hq (goSplitN2_ne_nil sep cs)
      · rw [hq] at ih
        simp only [List.headD_cons] at ih
        simp [goSplitN2, h, hq, List.takeWhile_cons, ih]

theorem goHasPfx_iff_take (s pfx : List Char) :
    goHasPfx s pfx = true ↔ s.take pfx.length = pfx := by
  induction pfx generalizing s with
  | nil => simp [goHasPfx]
  | cons p ps ih =>
    cases s with
    | nil => simp [goHasPfx]
    | cons c cs => simp [goHasPfx, ih]

theorem markerAct_cases (f : File) :
    markerAct f = .execInsert f.version ∨ markerAct f = .execDelete f.version := by
  rcases f with ⟨v, d, content⟩
  cases d
  · exact Or.inl rfl
  · exact Or.inr rfl

theorem isMarkerAct_markerAct (f : File) : isMarkerAct (markerAct f) = true := by
  rcases markerAct_cases f with h | h <;> rw [h] <;> rfl

theorem markerAct_ne_rollback (f : File) : markerAct f ≠ .rollback := by
  rcases markerAct_cases f with h | h <;> rw [h] <;> simp

theorem markerAct_ne_commit (f : File) : markerAct f ≠ .commit := by
  rcases markerAct_cases f with h | h <;> rw [h] <;> simp

theorem markerAct_ne_inTx (f : File) : markerAct f ≠ .execContentInTx := by
  rcases markerAct_cases f with h | h <;> rw [h] <;> simp

theorem markerAct_ne_onDb (f : File) : markerAct f ≠ .execContentOnDb := by
  rcases markerAct_cases f with h | h <;> rw [h] <;> simp

theorem rollback_ne_markerAct (f : File) : Action.rollback ≠ markerAct f := by
  rcases markerAct_cases f with h | h <;> rw [h] <;> simp

theorem commit_ne_markerAct (f : File) : Action.commit ≠ markerAct f := by
  rcases markerAct_cases f with h | h <;> rw [h] <;> simp

theorem inTx_ne_markerAct (f : File) :
    Action.execContentInTx ≠ markerAct f := by
  rcases markerAct_cases f with h | h <;> rw [h] <;> simp

theorem onDb_ne_markerAct (f : File) :
    Action.execContentOnDb ≠ markerAct f := by
  rcases markerAct_cases f with h | h <;> rw [h] <;> simp

theorem stmtFail_final (f : File) (o : MigrateOracle) (e : GoError)
    (c : List Int) (t : List Action) :
    (stmtFail f o e c t).finalVersions = c := by
  rcases e with pe | m
  · simp only [stmtFail]
    rcases goAtoi pe.position with _ | off <;>
      rcases o.rollbackErr with _ | re <;> simp
  · rfl

theorem stmtFail_closed (f : File) (o : MigrateOracle) (e : GoError)
    (c : List Int) (t : List Action) :
    (stmtFail f o e c t).closed = true := by
  rcases e with pe | m
  · simp only [stmtFail]
    rcases goAtoi pe.position with _ | off <;>
      rcases o.rollbackErr with _ | re <;> simp
  · rfl

theorem stmtFail_trace (f : File) (o : MigrateOracle) (e : GoError)
    (c : List Int) (t : List Action) :
    (stmtFail f o e c t).trace = t ∨
      (stmtFail f o e c t).trace = t ++ [.rollback] := by
  rcases e with pe | m
  · simp only [stmtFail]
    rcases goAtoi pe.position with _ | off <;>
      rcases o.rollbackErr with _ | re <;> simp
  · exact Or.inl rfl

theorem stmtFail_pipe_head (f : File) (o : MigrateOracle) (e : GoError)
    (c : List Int) (t : List Action) :
    (stmtFail f o e c t).pipe.head? = some (.file f) := by
  rcases e with pe | m
  · simp only [stmtFail]
    rcases goAtoi pe.position with _ | off <;>
      rcases o.rollbackErr with _ | re <;> simp
  · rfl

theorem fileOptions_eq_spec (content : List Char) :
    fileOptions content = fileOptionsSpec content := by
  unfold fileOptions fileOptionsSpec
  rw [goSplitN2_headD]
  have hm : optionMarker = ['-', '-', ' '] := rfl
  set fl := content.takeWhile (fun c => c != '\n') with hfl
  by_cases h : fl.take 3 = ['-', '-', ' ']
  · have hp : goHasPfx fl optionMarker = true := by
      rw [goHasPfx_iff_take]
      simpa [hm] using h
    rw [hm] at hp
    simp [hp, h, goTrimPfx, hm]
  · have hp : ¬ goHasPfx fl optionMarker = true := by
      rw [goHasPfx_iff_take]
      simpa [hm] using h
    rw [hm] at hp
    simp [hm, hp, h]

/-- C4: for every content byte string, `fileOptions` returns the tokens of
the first line (up to, not including, the first newline): if that line
starts with the exact three characters `-- ` it strips the prefix and splits
the remainder on single spaces, otherwise the empty set; in particular
`-- disable_ddl_transaction\n...` yields the disable token, content with no
leading comment yields no tokens, and `-- foo bar\n...` yields foo and
bar. -/
theorem fileOptions_matches_spec :
    (∀ content : List Char, fileOptions content = fileOptionsSpec content) ∧
    fileOptions ("-- disable_ddl_transaction\nCREATE TABLE t;".toList) =
      [txDisabledOption] ∧
    fileOptions ("CREATE TABLE t;".toList) = [] ∧
    fileOptions ("-- foo bar\nbody".toList) = ["foo".toList, "bar".toList] :=
  ⟨fileOptions_eq_spec, rfl, rfl, rfl⟩

/-- C1: `ensureVersionTableExists` issues the CREATE TABLE statement exactly
when the existence check reports the table absent (count ≤ 0), issues the
ALTER TABLE widening statement exactly when the table exists and the version
column's declared type is not `bigint`, and on a database where the table
already exists with a `bigint` version column executes no DDL statement at
all. -/
theorem ensureSchema_ddl_policy (o : SchemaOracle) :
    ((Ddl.createTable ∈ (ensureVersionTableExists o).2) ↔
      ∃ c, o.countResult = .ok c ∧ c ≤ 0) ∧
    ((Ddl.alterColumn ∈ (ensureVersionTableExists o).2) ↔
      ∃ c dataType, o.countResult = .ok c ∧ 0 < c ∧
        o.dataTypeResult = .ok dataType ∧ dataType ≠ "bigint") ∧
    (∀ c, o.countResult = .ok c → 0 < c →
      o.dataTypeResult = .ok "bigint" →
      (ensureVersionTableExists o).2 = []) := by
  rcases o with ⟨cr, dr, ce, ae⟩
  rcases cr with e | c
  · simp [ensureVersionTableExists]
  · by_cases hc : c ≤ 0
    · refine ⟨?_, ?_, ?_⟩
      · simp [ensureVersionTableExists, hc]
      · simp only [ensureVersionTableExists, if_pos hc]
        simp
        omega
      · intro c' hc' h0 _
        injection hc' with hcc
        omega
    · rcases dr with e' | dataType
      · refine ⟨?_, ?_, ?_⟩
        · simp [ensureVersionTableExists, hc]
        · simp [ensureVersionTableExists, hc]
        · intro c' hc' h0 hbig
          cases hbig
      · by_cases hd : dataType = "bigint"
        · refine ⟨?_, ?_, ?_⟩
          · simp [ensureVersionTableExists, hc, hd]
          · simp [ensureVersionTableExists, hc, hd]
          · intro c' hc' h0 hbig
            simp [ensureVersionTableExists, hc, hd]
        · refine ⟨?_, ?_, ?_⟩
          · simp [ensureVersionTableExists, hc, hd]
          · simp [ensureVersionTableExists, hc, hd]
            omega
          · intro c' hc' h0 hbig
            injection hbig with hb
            exact absurd hb hd

/-- Witness for `ensureSchema_ddl_policy`: on a database reporting one
existing table row with a `bigint` version column, no DDL is executed. -/
theorem ensureSchema_ddl_policy_witness :
    (ensureVersionTableExists ⟨.ok 1, .ok "bigint", none, none⟩).2 = [] :=
  (ensureSchema_ddl_policy ⟨.ok 1, .ok "bigint", none, none⟩).2.2 1 rfl
    (by decide) rfl

theorem stmtFail_pipe_cases (f : File) (o : MigrateOracle) (e : GoError)
    (c : List Int) (t : List Action) :
    (stmtFail f o e c t).pipe = [.file f] ∨
    (∃ em, isErrValue em = true ∧ (stmtFail f o e c t).pipe = [.file f, em]) ∨
    (∃ em re, isErrValue em = true ∧ o.rollbackErr = some re ∧
      (stmtFail f o e c t).pipe = [.file f, em, .rawErr re]) := by
  rcases e with pe | m
  · rcases ha : goAtoi pe.position with _ | off
    · rcases hrb : o.rollbackErr with _ | re
      · have hp : (stmtFail f o (.pq pe) c t).pipe =
            [.file f, .fmtErr (shortFormat pe)] := by
          simp [stmtFail, ha, hrb]
        right; left
        refine ⟨_, ?_, hp⟩
        rfl
      · have hp : (stmtFail f o (.pq pe) c t).pipe =
            [.file f, .fmtErr (shortFormat pe), .rawErr re] := by
          simp [stmtFail, ha, hrb]
        right; right
        refine ⟨_, re, ?_, rfl, hp⟩
        rfl
    · by_cases hoff : 0 ≤ off
      · rcases hrb : o.rollbackErr with _ | re
        · have hp : (stmtFail f o (.pq pe) c t).pipe =
              [.file f, .fmtErr (locatedFmt f.content pe off)] := by
            simp [stmtFail, ha, hrb, hoff]
          right; left
          refine ⟨_, ?_, hp⟩
          rfl
        · have hp : (stmtFail f o (.pq pe) c t).pipe =
              [.file f, .fmtErr (locatedFmt f.content pe off), .rawErr re] := by
            simp [stmtFail, ha, hrb, hoff]
          right; right
          refine ⟨_, re, ?_, rfl, hp⟩
          rfl
      · rcases hrb : o.rollbackErr with _ | re
        · have hp : (stmtFail f o (.pq pe) c t).pipe =
              [.file f, .fmtErr (shortFormat pe)] := by
            simp [stmtFail, ha, hrb, hoff]
          right; left
          refine ⟨_, ?_, hp⟩
          rfl
        · have hp : (stmtFail f o (.pq pe) c t).pipe =
              [.file f, .fmtErr (shortFormat pe), .rawErr re] := by
            simp [stmtFail, ha, hrb, hoff]
          right; right
          refine ⟨_, re, ?_, rfl, hp⟩
          rfl
  · left; rfl

theorem migrate_closed (f : File) (o : MigrateOracle) (db : List Int) :
    (Migrate f o db).closed = true := by
  rcases hb : o.beginErr with _ | e
  · rcases hmk : markerErrOf f o with _ | e
    · rcases hrd : o.readErr with _ | e
      · by_cases htx : txDisabled (fileOptions f.content)
        · rcases hex : o.execDbErr with _ | e
          · rcases hcm : o.commitErr with _ | e <;>
              simp [Migrate, hb, hmk, hrd, htx, hex, hcm]
          · have hM : Migrate f o db = stmtFail f o e (o.contentEffect db)
                [Action.beginTx, markerAct f, .readContent, .execContentOnDb] := by
              simp [Migrate, hb, hmk, hrd, htx, hex]
            rw [hM]
            exact stmtFail_closed _ _ _ _ _
        · rcases hex : o.execTxErr with _ | e
          · rcases hcm : o.commitErr with _ | e <;>
              simp [Migrate, hb, hmk, hrd, htx, hex, hcm]
          · have hM : Migrate f o db = stmtFail f o e db
                [Action.beginTx, markerAct f, .readContent, .execContentInTx] := by
              simp [Migrate, hb, hmk, hrd, htx, hex]
            rw [hM]
            exact stmtFail_closed _ _ _ _ _
      · simp [Migrate, hb, hmk, hrd]
    · rcases hrb : o.rollbackErr with _ | re <;> simp [Migrate, hb, hmk, hrb]
  · simp [Migrate, hb]

theorem migrate_pipe_cases (f : File) (o : MigrateOracle) (db : List Int) :
    (Migrate f o db).pipe = [.file f] ∨
    (∃ em, isErrValue em = true ∧ (Migrate f o db).pipe = [.file f, em]) ∨
    (∃ em re, isErrValue em = true ∧ o.rollbackErr = some re ∧
      (Migrate f o db).pipe = [.file f, em, .rawErr re]) := by
  rcases hb : o.beginErr with _ | e
  · rcases hmk : markerErrOf f o with _ | e
    · rcases hrd : o.readErr with _ | e
      · by_cases htx : txDisabled (fileOptions f.content)
        · rcases hex : o.execDbErr with _ | e
          · rcases hcm : o.commitErr with _ | e
            · left
              simp [Migrate, hb, hmk, hrd, htx, hex, hcm]
            · right; left
              refine ⟨.rawErr e, rfl, ?_⟩
              simp [Migrate, hb, hmk, hrd, htx, hex, hcm]
          · have hM : Migrate f o db = stmtFail f o e (o.contentEffect db)
                [Action.beginTx, markerAct f, .readContent, .execContentOnDb] := by
              simp [Migrate, hb, hmk, hrd, htx, hex]
            rw [hM]
            exact stmtFail_pipe_cases _ _ _ _ _
        · rcases hex : o.execTxErr with _ | e
          · rcases hcm : o.commitErr with _ | e
            · left
              simp [Migrate, hb, hmk, hrd, htx, hex, hcm]
            · right; left
              refine ⟨.rawErr e, rfl, ?_⟩
              simp [Migrate, hb, hmk, hrd, htx, hex, hcm]
          · have hM : Migrate f o db = stmtFail f o e db
                [Action.beginTx, markerAct f, .readContent, .execContentInTx] := by
              simp [Migrate, hb, hmk, hrd, htx, hex]
            rw [hM]
            exact stmtFail_pipe_cases _ _ _ _ _
      · right; left
        refine ⟨.rawErr e, rfl, ?_⟩
        simp [Migrate, hb, hmk, hrd]
    · rcases hrb : o.rollbackErr with _ | re
      · right; left
        refine ⟨.rawErr e, rfl, ?_⟩
        simp [Migrate, hb, hmk, hrb]
      · right; right
        refine ⟨.rawErr e, re, rfl, rfl, ?_⟩
        simp [Migrate, hb, hmk, hrb]
  · right; left
    refine ⟨.rawErr e, rfl, ?_⟩
    simp [Migrate, hb]

/-- C3: every `Migrate` call emits the file object first, before any
transaction or statement work, regardless of later success or failure; when
every step succeeds (begin, marker mutation, content load, statement
execution, commit) the channel carries exactly one value — the file — and is
then closed with no error values. -/
theorem migrate_stream_contract (f : File) (o : MigrateOracle)
    (db : List Int) :
    (Migrate f o db).pipe.head? = some (.file f) ∧
    (allStepsSucceed f o →
      (Migrate f o db).pipe = [.file f] ∧
      (Migrate f o db).closed = true) := by
  constructor
  · rcases migrate_pipe_cases f o db with h | ⟨em, _, h⟩ | ⟨em, re, _, _, h⟩ <;>
      simp [h]
  · rintro ⟨hb, hmk, hrd, hex, hcm⟩
    by_cases htx : txDisabled (fileOptions f.content)
    · rw [if_pos htx] at hex
      exact ⟨by simp [Migrate, hb, hmk, hrd, htx, hex, hcm],
        migrate_closed f o db⟩
    · rw [if_neg htx] at hex
      exact ⟨by simp [Migrate, hb, hmk, hrd, htx, hex, hcm],
        migrate_closed f o db⟩

/-- Witness for `migrate_stream_contract`: a fully successful call emits
exactly the file and closes. -/
theorem migrate_stream_contract_witness :
    (Migrate sampleFileUp oracleAllOk []).pipe = [.file sampleFileUp] ∧
    (Migrate sampleFileUp oracleAllOk []).closed = true :=
  (migrate_stream_contract sampleFileUp oracleAllOk []).2
    ⟨rfl, rfl, rfl, rfl, rfl⟩

/-- C10: the result channel of every `Migrate` call carries at most three
values before being closed: the file first, then only error values, with a
third value possible only as the forwarded rollback error; the channel is
closed on every path. -/
theorem migrate_pipe_bounds (f : File) (o : MigrateOracle) (db : List Int) :
    (Migrate f o db).closed = true ∧
    (Migrate f o db).pipe.length ≤ 3 ∧
    (Migrate f o db).pipe.head? = some (.file f) ∧
    ((Migrate f o db).pipe.drop 1).all isErrValue = true ∧
    (∀ v, (Migrate f o db).pipe.get? 2 = some v →
      ∃ re, o.rollbackErr = some re ∧ v = .rawErr re) := by
  refine ⟨migrate_closed f o db, ?_⟩
  rcases migrate_pipe_cases f o db with h | ⟨em, hem, h⟩ | ⟨em, re, hem, hre, h⟩
  · simp [h]
  · simp [h, hem]
  · refine ⟨?_, ?_, ?_, ?_⟩
    · simp [h]
    · simp [h]
    · rw [h]
      simp only [List.drop, List.all]
      rw [hem]
      rfl
    · intro v hv
      rw [h] at hv
      simp only [List.get?] at hv
      injection hv with hv
      exact ⟨re, hre, hv.symm⟩

/-- Witness for `migrate_pipe_bounds`: when the marker insert and the
rollback both fail, the third channel value is the forwarded rollback
error. -/
theorem migrate_pipe_bounds_witness :
    ∃ re, oracleMarkerRbFail.rollbackErr = some re ∧
      PipeValue.rawErr (.other "rollback failed") = .rawErr re :=
  (migrate_pipe_bounds sampleFileUp oracleMarkerRbFail []).2.2.2.2
    (.rawErr (.other "rollback failed")) rfl

/-- C2: when the statement body of a transactional (non-disabled) file fails
to execute, the marker mutation done earlier in the same transaction is not
visible afterwards: the version-table rows — and hence the list `Versions()`
returns — are exactly those from before the call. -/
theorem migrate_stmtfail_versions_unchanged (f : File) (o : MigrateOracle)
    (db : List Int)
    (hdis : txDisabled (fileOptions f.content) = false)
    (hb : o.beginErr = none) (hmk : markerErrOf f o = none)
    (hrd : o.readErr = none) (e : GoError) (he : o.execTxErr = some e) :
    (Migrate f o db).finalVersions = db ∧
    VersionsOf (Migrate f o db).finalVersions = VersionsOf db := by
  have hM : Migrate f o db = stmtFail f o e db
      [Action.beginTx, markerAct f, .readContent, .execContentInTx] := by
    simp [Migrate, hb, hmk, hrd, hdis, he]
  rw [hM, stmtFail_final]
  exact ⟨rfl, rfl⟩

/-- Witness for `migrate_stmtfail_versions_unchanged`: a failing statement in
a transactional file leaves the version rows `[7]` untouched. -/
theorem migrate_stmtfail_versions_unchanged_witness :
    (Migrate sampleFileUp oracleStmtFailTx [7]).finalVersions = [7] ∧
    VersionsOf (Migrate sampleFileUp oracleStmtFailTx [7]).finalVersions =
      VersionsOf [7] :=
  migrate_stmtfail_versions_unchanged sampleFileUp oracleStmtFailTx [7] rfl
    rfl rfl rfl _ rfl

/-- C5: with the disable-transaction directive, the file content is executed
directly on the database handle and never inside the transaction, while the
marker mutation stays in the transaction and lands only at commit (the final
rows are the marker applied on top of the already-durable content effect);
without the directive the content runs inside the transaction. -/
theorem migrate_txDisabled_bypass (f : File) (o : MigrateOracle)
    (db : List Int) (hb : o.beginErr = none) (hmk : markerErrOf f o = none)
    (hrd : o.readErr = none) :
    (txDisabled (fileOptions f.content) = true →
      Action.execContentOnDb ∈ (Migrate f o db).trace ∧
      Action.execContentInTx ∉ (Migrate f o db).trace ∧
      (o.execDbErr = none → o.commitErr = none →
        (Migrate f o db).finalVersions = markerOp f (o.contentEffect db))) ∧
    (txDisabled (fileOptions f.content) = false →
      Action.execContentInTx ∈ (Migrate f o db).trace ∧
      Action.execContentOnDb ∉ (Migrate f o db).trace ∧
      (o.execTxErr = none → o.commitErr = none →
        (Migrate f o db).finalVersions =
          o.contentEffect (markerOp f db))) := by
  constructor
  · intro htx
    refine ⟨?_, ?_, ?_⟩
    · rcases hex : o.execDbErr with _ | e
      · rcases hcm : o.commitErr with _ | e2 <;>
          simp [Migrate, hb, hmk, hrd, htx, hex, hcm]
      · have hM : Migrate f o db = stmtFail f o e (o.contentEffect db)
            [Action.beginTx, markerAct f, .readContent, .execContentOnDb] := by
          simp [Migrate, hb, hmk, hrd, htx, hex]
        rw [hM]
        rcases stmtFail_trace f o e (o.contentEffect db)
            [Action.beginTx, markerAct f, .readContent, .execContentOnDb]
          with ht | ht <;> rw [ht] <;> simp
    · rcases hex : o.execDbErr with _ | e
      · rcases hcm : o.commitErr with _ | e2 <;>
          simp [Migrate, hb, hmk, hrd, htx, hex, hcm, inTx_ne_markerAct]
      · have hM : Migrate f o db = stmtFail f o e (o.contentEffect db)
            [Action.beginTx, markerAct f, .readContent, .execContentOnDb] := by
          simp [Migrate, hb, hmk, hrd, htx, hex]
        rw [hM]
        rcases stmtFail_trace f o e (o.contentEffect db)
            [Action.beginTx, markerAct f, .readContent, .execContentOnDb]
          with ht | ht <;> rw [ht] <;> simp [inTx_ne_markerAct]
    · intro hex hcm
      simp [Migrate, hb, hmk, hrd, htx, hex, hcm]
  · intro htx
    refine ⟨?_, ?_, ?_⟩
    · rcases hex : o.execTxErr with _ | e
      · rcases hcm : o.commitErr with _ | e2 <;>
          simp [Migrate, hb, hmk, hrd, htx, hex, hcm]
      · have hM : Migrate f o db = stmtFail f o e db
            [Action.beginTx, markerAct f, .readContent, .execContentInTx] := by
          simp [Migrate, hb, hmk, hrd, htx, hex]
        rw [hM]
        rcases stmtFail_trace f o e db
            [Action.beginTx, markerAct f, .readContent, .execContentInTx]
          with ht | ht <;> rw [ht] <;> simp
    · rcases hex : o.execTxErr with _ | e
      · rcases hcm : o.commitErr with _ | e2 <;>
          simp [Migrate, hb, hmk, hrd, htx, hex, hcm, onDb_ne_markerAct]
      · have hM : Migrate f o db = stmtFail f o e db
            [Action.beginTx, markerAct f, .readContent, .execContentInTx] := by
          simp [Migrate, hb, hmk, hrd, htx, hex]
        rw [hM]
        rcases stmtFail_trace f o e db
            [Action.beginTx, markerAct f, .readContent, .execContentInTx]
          with ht | ht <;> rw [ht] <;> simp [onDb_ne_markerAct]
    · intro hex hcm
      simp [Migrate, hb, hmk, hrd, htx, hex, hcm]

/-- Witness for `migrate_txDisabled_bypass`: a disabled-transaction file's
content runs on the database handle and the marker lands at commit. -/
theorem migrate_txDisabled_bypass_witness :
    Action.execContentOnDb ∈ (Migrate disabledFileUp oracleAllOk []).trace ∧
    Action.execContentInTx ∉ (Migrate disabledFileUp oracleAllOk []).trace ∧
    (Migrate disabledFileUp oracleAllOk []).finalVersions =
      markerOp disabledFileUp (oracleAllOk.contentEffect []) :=
  ⟨((migrate_txDisabled_bypass disabledFileUp oracleAllOk [] rfl rfl rfl).1
      rfl).1,
   ((migrate_txDisabled_bypass disabledFileUp oracleAllOk [] rfl rfl rfl).1
      rfl).2.1,
   ((migrate_txDisabled_bypass disabledFileUp oracleAllOk [] rfl rfl rfl).1
      rfl).2.2 rfl rfl⟩

/-- C6: when loading the file content fails after the marker mutation
succeeded, the call emits the load error and closes, and on that path the
open transaction is neither committed nor rolled back by the executor. -/
theorem migrate_readfail_leaves_tx (f : File) (o : MigrateOracle)
    (db : List Int) (hb : o.beginErr = none) (hmk : markerErrOf f o = none)
    (e : GoError) (hrd : o.readErr = some e) :
    (Migrate f o db).pipe = [.file f, .rawErr e] ∧
    (Migrate f o db).closed = true ∧
    Action.commit ∉ (Migrate f o db).trace ∧
    Action.rollback ∉ (Migrate f o db).trace ∧
    (Migrate f o db).finalVersions = db := by
  have hM : Migrate f o db = ⟨[.file f, .rawErr e],
      [.beginTx, markerAct f, .readContent], db, false, true⟩ := by
    simp [Migrate, hb, hmk, hrd]
  rw [hM]
  refine ⟨rfl, rfl, ?_, ?_, rfl⟩
  · simp [commit_ne_markerAct]
  · simp [rollback_ne_markerAct]

/-- Witness for `migrate_readfail_leaves_tx`: a failing content load emits
the error and issues neither commit nor rollback. -/
theorem migrate_readfail_leaves_tx_witness :
    (Migrate sampleFileUp oracleReadFail [2]).pipe =
      [.file sampleFileUp, .rawErr (.other "read failed")] ∧
    (Migrate sampleFileUp oracleReadFail [2]).closed = true ∧
    Action.commit ∉ (Migrate sampleFileUp oracleReadFail [2]).trace ∧
    Action.rollback ∉ (Migrate sampleFileUp oracleReadFail [2]).trace ∧
    (Migrate sampleFileUp oracleReadFail [2]).finalVersions = [2] :=
  migrate_readfail_leaves_tx sampleFileUp oracleReadFail [2] rfl rfl _ rfl

theorem countMarker_append (s t : List Action) :
    countMarker (s ++ t) = countMarker s + countMarker t := by
  simp [countMarker, List.filter_append]

theorem migrate_trace_shape (f : File) (o : MigrateOracle) (db : List Int)
    (hb : o.beginErr = none) (hmk : markerErrOf f o = none)
    (hrd : o.readErr = none) :
    ∃ tail, (Migrate f o db).trace =
      [Action.beginTx, markerAct f, .readContent,
        if txDisabled (fileOptions f.content) then Action.execContentOnDb
        else Action.execContentInTx] ++ tail ∧
      countMarker tail = 0 := by
  by_cases htx : txDisabled (fileOptions f.content)
  · rcases hex : o.execDbErr with _ | e
    · rcases hcm : o.commitErr with _ | e2 <;>
        exact ⟨[.commit], by simp [Migrate, hb, hmk, hrd, htx, hex, hcm], rfl⟩
    · have hM : Migrate f o db = stmtFail f o e (o.contentEffect db)
          [Action.beginTx, markerAct f, .readContent, .execContentOnDb] := by
        simp [Migrate, hb, hmk, hrd, htx, hex]
      rcases stmtFail_trace f o e (o.contentEffect db)
          [Action.beginTx, markerAct f, .readContent, .execContentOnDb]
        with ht | ht
      · exact ⟨[], by rw [hM, ht]; simp [htx], rfl⟩
      · exact ⟨[.rollback], by rw [hM, ht]; simp [htx], rfl⟩
  · rcases hex : o.execTxErr with _ | e
    · rcases hcm : o.commitErr with _ | e2 <;>
        exact ⟨[.commit], by simp [Migrate, hb, hmk, hrd, htx, hex, hcm], rfl⟩
    · have hM : Migrate f o db = stmtFail f o e db
          [Action.beginTx, markerAct f, .readContent, .execContentInTx] := by
        simp [Migrate, hb, hmk, hrd, htx, hex]
      rcases stmtFail_trace f o e db
          [Action.beginTx, markerAct f, .readContent, .execContentInTx]
        with ht | ht
      · exact ⟨[], by rw [hM, ht]; simp [htx], rfl⟩
      · exact ⟨[.rollback], by rw [hM, ht]; simp [htx], rfl⟩

/-- C8: every `Migrate` call that reaches statement execution performs
exactly one version-marker mutation — an insert of the file's version for
Up, a delete for Down — and issues it before the content execution. -/
theorem migrate_marker_once (f : File) (o : MigrateOracle) (db : List Int)
    (hb : o.beginErr = none) (hmk : markerErrOf f o = none)
    (hrd : o.readErr = none) :
    countMarker (Migrate f o db).trace = 1 ∧
    (Migrate f o db).trace.take 4 =
      [Action.beginTx, markerAct f, .readContent,
        if txDisabled (fileOptions f.content) then Action.execContentOnDb
        else Action.execContentInTx] ∧
    (f.direction = .up → markerAct f = .execInsert f.version) ∧
    (f.direction = .down → markerAct f = .execDelete f.version) := by
  obtain ⟨tail, htr, htail⟩ := migrate_trace_shape f o db hb hmk hrd
  refine ⟨?_, ?_, ?_, ?_⟩
  · rw [htr, countMarker_append, htail]
    rcases markerAct_cases f with hact | hact <;> rw [hact] <;>
      by_cases htx : txDisabled (fileOptions f.content) <;>
        simp [htx, countMarker, List.filter, isMarkerAct]
  · rw [htr]
    rfl
  · intro hdir
    rcases f with ⟨v, d, c⟩
    cases d
    · rfl
    · exact absurd hdir (by simp)
  · intro hdir
    rcases f with ⟨v, d, c⟩
    cases d
    · exact absurd hdir (by simp)
    · rfl

/-- Witness for `migrate_marker_once`: on a successful Up migration the
trace holds exactly one marker mutation, before the content execution. -/
theorem migrate_marker_once_witness :
    countMarker (Migrate sampleFileUp oracleAllOk []).trace = 1 ∧
    (Migrate sampleFileUp oracleAllOk []).trace.take 4 =
      [Action.beginTx, markerAct sampleFileUp, .readContent,
        if txDisabled (fileOptions sampleFileUp.content)
        then Action.execContentOnDb else Action.execContentInTx] :=
  ⟨(migrate_marker_once sampleFileUp oracleAllOk [] rfl rfl rfl).1,
   (migrate_marker_once sampleFileUp oracleAllOk [] rfl rfl rfl).2.1⟩

theorem stmtFail_emitted (f : File) (o : MigrateOracle) (pe : PqError)
    (c : List Int) (t : List Action) :
    (∀ off, goAtoi pe.position = some off → 0 ≤ off →
      (stmtFail f o (.pq pe) c t).pipe.get? 1 =
        some (.fmtErr (locatedFmt f.content pe off))) ∧
    (goAtoi pe.position = none →
      (stmtFail f o (.pq pe) c t).pipe.get? 1 =
        some (.fmtErr (shortFormat pe))) ∧
    (∀ off, goAtoi pe.position = some off → off < 0 →
      (stmtFail f o (.pq pe) c t).pipe.get? 1 =
        some (.fmtErr (shortFormat pe))) := by
  refine ⟨?_, ?_, ?_⟩
  · intro off ha hoff
    rcases hrb : o.rollbackErr with _ | re <;>
      simp [stmtFail, ha, hrb, hoff, List.get?]
  · intro ha
    rcases hrb : o.rollbackErr with _ | re <;>
      simp [stmtFail, ha, hrb, List.get?]
  · intro off ha hoff
    have h2 : ¬ (0 ≤ off) := by omega
    rcases hrb : o.rollbackErr with _ | re <;>
      simp [stmtFail, ha, hrb, h2, List.get?]

theorem locatedFmt_eq (content : List Char) (pe : PqError) (off : Int) :
    locatedFmt content pe off = longFormat pe
      (lineColumnFromOffset content (off - 1)).1
      (lineColumnFromOffset content (off - 1)).2
      (linesBeforeAndAfter content
        (lineColumnFromOffset content (off - 1)).1 5 5 true) := rfl

/-- C7: a statement-execution failure whose backend error carries a
parsable, non-negative position hint is emitted as the single long format
combining severity, code, message, line, column and the ±5-line context
block, with (line, column) computed from the position decreased by exactly
one; an absent, unparsable or negative hint yields the short
severity/code/message format. -/
theorem migrate_stmtfail_error_format (f : File) (o : MigrateOracle)
    (db : List Int) (hb : o.beginErr = none) (hmk : markerErrOf f o = none)
    (hrd : o.readErr = none) (pe : PqError)
    (he : (if txDisabled (fileOptions f.content) then o.execDbErr
           else o.execTxErr) = some (.pq pe)) :
    (∀ off, goAtoi pe.position = some off → 0 ≤ off →
      (Migrate f o db).pipe.get? 1 = some (.fmtErr (longFormat pe
        (lineColumnFromOffset f.content (off - 1)).1
        (lineColumnFromOffset f.content (off - 1)).2
        (linesBeforeAndAfter f.content
          (lineColumnFromOffset f.content (off - 1)).1 5 5 true)))) ∧
    (goAtoi pe.position = none →
      (Migrate f o db).pipe.get? 1 = some (.fmtErr (shortFormat pe))) ∧
    (∀ off, goAtoi pe.position = some off → off < 0 →
      (Migrate f o db).pipe.get? 1 = some (.fmtErr (shortFormat pe))) := by
  by_cases htx : txDisabled (fileOptions f.content)
  · rw [if_pos htx] at he
    have hM : Migrate f o db = stmtFail f o (.pq pe) (o.contentEffect db)
        [Action.beginTx, markerAct f, .readContent, .execContentOnDb] := by
      simp [Migrate, hb, hmk, hrd, htx, he]
    rw [hM]
    have h := stmtFail_emitted f o pe (o.contentEffect db)
      [Action.beginTx, markerAct f, .readContent, .execContentOnDb]
    refine ⟨?_, h.2.1, h.2.2⟩
    intro off ha hoff
    rw [← locatedFmt_eq]
    exact h.1 off ha hoff
  · rw [if_neg htx] at he
    have hM : Migrate f o db = stmtFail f o (.pq pe) db
        [Action.beginTx, markerAct f, .readContent, .execContentInTx] := by
      simp [Migrate, hb, hmk, hrd, htx, he]
    rw [hM]
    have h := stmtFail_emitted f o pe db
      [Action.beginTx, markerAct f, .readContent, .execContentInTx]
    refine ⟨?_, h.2.1, h.2.2⟩
    intro off ha hoff
    rw [← locatedFmt_eq]
    exact h.1 off ha hoff

/-- Witness for `migrate_stmtfail_error_format`: position hint "14" yields
the long located format computed from offset 13. -/
theorem migrate_stmtfail_error_format_witness :
    (Migrate badSqlFile oracleStmtFailTx14 []).pipe.get? 1 =
      some (.fmtErr (longFormat pqErr14
        (lineColumnFromOffset badSqlFile.content (14 - 1)).1
        (lineColumnFromOffset badSqlFile.content (14 - 1)).2
        (linesBeforeAndAfter badSqlFile.content
          (lineColumnFromOffset badSqlFile.content (14 - 1)).1 5 5 true))) :=
  (migrate_stmtfail_error_format badSqlFile oracleStmtFailTx14 [] rfl rfl rfl
    pqErr14 rfl).1 14 rfl (by decide)

/-- C9: if statement execution fails with an error that is not a
backend-native `pq` error, the unconditional cast fails and the call panics:
no error value is emitted and no rollback is issued (the deferred channel
close still runs). -/
theorem migrate_nonpq_panics (f : File) (o : MigrateOracle) (db : List Int)
    (hb : o.beginErr = none) (hmk : markerErrOf f o = none)
    (hrd : o.readErr = none) (msg : String)
    (he : (if txDisabled (fileOptions f.content) then o.execDbErr
           else o.execTxErr) = some (.other msg)) :
    (Migrate f o db).panicked = true ∧
    (Migrate f o db).pipe = [.file f] ∧
    Action.rollback ∉ (Migrate f o db).trace ∧
    (Migrate f o db).closed = true := by
  by_cases htx : txDisabled (fileOptions f.content)
  · rw [if_pos htx] at he
    have hM : Migrate f o db = stmtFail f o (.other msg) (o.contentEffect db)
        [Action.beginTx, markerAct f, .readContent, .execContentOnDb] := by
      simp [Migrate, hb, hmk, hrd, htx, he]
    rw [hM]
    refine ⟨rfl, rfl, ?_, rfl⟩
    simp [stmtFail, rollback_ne_markerAct]
  · rw [if_neg htx] at he
    have hM : Migrate f o db = stmtFail f o (.other msg) db
        [Action.beginTx, markerAct f, .readContent, .execContentInTx] := by
      simp [Migrate, hb, hmk, hrd, htx, he]
    rw [hM]
    refine ⟨rfl, rfl, ?_, rfl⟩
    simp [stmtFail, rollback_ne_markerAct]

/-- Witness for `migrate_nonpq_panics`: a non-pq statement error panics with
only the file emitted and no rollback. -/
theorem migrate_nonpq_panics_witness :
    (Migrate sampleFileUp oracleStmtFailOther []).panicked = true ∧
    (Migrate sampleFileUp oracleStmtFailOther []).pipe =
      [.file sampleFileUp] ∧
    Action.rollback ∉ (Migrate sampleFileUp oracleStmtFailOther []).trace ∧
    (Migrate sampleFileUp oracleStmtFailOther []).closed = true :=
  migrate_nonpq_panics sampleFileUp oracleStmtFailOther [] rfl rfl rfl _ rfl

end PostgresDriver
